import Mathlib

/-!
Shallow embedding of the `unicode-string` crate: the borrowed view type
`unicode_str` (a fat pointer over a run of `char`s), its `SliceIndex`
implementations for the six range shapes (`src/unicode_string/src/unicode_str_impl/index.rs`),
structural equality and lexicographic ordering
(`src/unicode_string/src/unicode_str_impl/cmp.rs`), the owned buffer
`UnicodeString` (`src/unicode_string/src/unicode_string_impl/unicode_string.rs`),
and the UTF-8 construction path with its error value
(`src/unicode_string/src/unicode_string_impl/from_utf8_error.rs`).

Machine integers (`usize`) are modelled as `Nat`, with wrapping written out
explicitly as `% 2 ^ 64` at the one place the source can underflow.
Raw-pointer reads are modelled by giving every view a total memory map
`Nat → Char`: a view is a base offset plus a length into that address space,
so out-of-bounds pointer arithmetic in the source becomes a read of
addresses beyond the view's span (real adjacent memory), not a truncation.
-/

set_option autoImplicit false

/-- Modulus of the 64-bit `usize` type. -/
def USIZE_MOD : Nat := 2 ^ 64

/-- Largest `usize` value (`usize::MAX`). -/
def USIZE_MAX : Nat := USIZE_MOD - 1

/-- Wrapping `usize` subtraction (release-mode semantics of `a - b`); exact
for operands below `2 ^ 64`. Debug builds instead abort with an arithmetic
overflow panic when `b > a`; either way the result is not a bounds check. -/
def usizeSub (a b : Nat) : Nat := (USIZE_MOD + a - b) % USIZE_MOD

/-- The address space a raw `*const char` reads from: a total map from
addresses to stored scalar values. -/
def Mem : Type := Nat → Char

/-- The borrowed view `unicode_str { chars: [char] }`. A `&unicode_str` is a
fat pointer: data pointer plus element count. We model the data pointer as
a base memory `mem` plus an element offset `off`, and the count as `len`,
so that the source's `ptr.add`, `slice_from_raw_parts` arithmetic is
representable even when it leaves the original span. -/
structure unicode_str where
  mem : Mem
  off : Nat
  len : Nat

/-- The `chars()` accessor: the scalar values the fat pointer spans
(`unicode_str_impl.rs`, `pub const fn chars`). -/
def unicode_str.chars (s : unicode_str) : List Char :=
  (List.range s.len).map (fun i => s.mem (s.off + i))

/-- The conditions under which a slicing call halts the process: the
`slice_error_fail` panic ("failed to slice string") and the
`str_index_overflow_fail` panic ("attempted to index str up to maximum
usize") of `index.rs`. -/
inductive Failure where
  | sliceError
  | indexOverflow
deriving DecidableEq

/-- The `index`-style entry points of `index.rs` for `Range`, `RangeTo` and
`RangeFrom` are literally a `match` on the corresponding `get`, turning
`None` into a panic; this captures that shape. -/
def optToExcept (f : Failure) (o : Option unicode_str) : Except Failure unicode_str :=
  match o with
  | some r => Except.ok r
  | none => Except.error f

/-- `RangeFull::get`: `Some(slice)`, never fails. -/
def rangeFullGet (s : unicode_str) : Option unicode_str := some s

/-- `RangeFull::index`: returns the slice itself. -/
def rangeFullIndex (s : unicode_str) : Except Failure unicode_str := Except.ok s

/-- `Range::get_unchecked` for `st .. en`: pointer `add(start)` and length
`end - start` (`ptr::slice_from_raw_parts`), with no bounds relation to the
source view. The guarded callers ensure `st ≤ en`, so plain `Nat`
subtraction is exact here. -/
def rangeGetUnchecked (st en : Nat) (s : unicode_str) : unicode_str :=
  { mem := s.mem, off := s.off + st, len := en - st }

/-- `Range::get` for `st .. en`: the source checks only `self.start <= self.end`
before calling `get_unchecked`; there is no `end <= len` check. -/
def rangeGet (st en : Nat) (s : unicode_str) : Option unicode_str :=
  if st ≤ en then some (rangeGetUnchecked st en s) else none

/-- `Range::index`: `match self.get(slice) { Some(s) => s, None => slice_error_fail() }`. -/
def rangeIndex (st en : Nat) (s : unicode_str) : Except Failure unicode_str :=
  optToExcept Failure.sliceError (rangeGet st en s)

/-- `RangeTo::get_unchecked` for `.. en`: same data pointer, length `en`. -/
def rangeToGetUnchecked (en : Nat) (s : unicode_str) : unicode_str :=
  { mem := s.mem, off := s.off, len := en }

/-- `RangeTo::get`: unconditionally `Some(get_unchecked)`; no check at all. -/
def rangeToGet (en : Nat) (s : unicode_str) : Option unicode_str :=
  some (rangeToGetUnchecked en s)

/-- `RangeTo::index`: `match` on `get`. -/
def rangeToIndex (en : Nat) (s : unicode_str) : Except Failure unicode_str :=
  optToExcept Failure.sliceError (rangeToGet en s)

/-- `RangeFrom::get_unchecked` for `st ..`: pointer `add(start)` and length
`self.chars.len() - start`, an unchecked `usize` subtraction. -/
def rangeFromGetUnchecked (st : Nat) (s : unicode_str) : unicode_str :=
  { mem := s.mem, off := s.off + st, len := usizeSub s.len st }

/-- `RangeFrom::get`: unconditionally `Some(get_unchecked)`; no `begin <= len`
check. -/
def rangeFromGet (st : Nat) (s : unicode_str) : Option unicode_str :=
  some (rangeFromGetUnchecked st s)

/-- `RangeFrom::index`: `match` on `get`. -/
def rangeFromIndex (st : Nat) (s : unicode_str) : Except Failure unicode_str :=
  optToExcept Failure.sliceError (rangeFromGet st s)

/-- The crate's `LocalRangeInclusive`, the transmuted layout of
`ops::RangeInclusive<usize>`: `start`, `end` (named `stop` here because `end`
is a Lean keyword) and the private `exhausted` flag set once external
iteration has drained the range. -/
structure LocalRangeInclusive where
  start : Nat
  stop : Nat
  exhausted : Bool

/-- `into_slice_range`: for a non-exhausted range `start .. end + 1`; for an
exhausted one `end + 1 .. end + 1`. Every caller in `index.rs` has already
ruled out `end == usize::MAX`, so `end + 1` does not wrap. The pair is
`(start, end)` of the produced half-open `ops::Range`. -/
def into_slice_range (r : LocalRangeInclusive) : Nat × Nat :=
  let exclusive_end := r.stop + 1
  let start := if r.exhausted then exclusive_end else r.start
  (start, exclusive_end)

/-- `RangeInclusive::get`: `None` when `end == usize::MAX`, otherwise the
`get` of the converted half-open range. -/
def rangeInclusiveGet (r : LocalRangeInclusive) (s : unicode_str) : Option unicode_str :=
  if r.stop = USIZE_MAX then none
  else
    let p := into_slice_range r
    rangeGet p.1 p.2 s

/-- `RangeInclusive::index`: `str_index_overflow_fail()` when
`end == usize::MAX`, otherwise the `index` of the converted half-open range. -/
def rangeInclusiveIndex (r : LocalRangeInclusive) (s : unicode_str) : Except Failure unicode_str :=
  if r.stop = USIZE_MAX then Except.error Failure.indexOverflow
  else
    let p := into_slice_range r
    rangeIndex p.1 p.2 s

/-- `RangeToInclusive::get`: `None` when `end == usize::MAX`, otherwise
`(.. end + 1).get`. -/
def rangeToInclusiveGet (en : Nat) (s : unicode_str) : Option unicode_str :=
  if en = USIZE_MAX then none else rangeToGet (en + 1) s

/-- `RangeToInclusive::index`: overflow panic when `end == usize::MAX`,
otherwise `(.. end + 1).index`. -/
def rangeToInclusiveIndex (en : Nat) (s : unicode_str) : Except Failure unicode_str :=
  if en = USIZE_MAX then Except.error Failure.indexOverflow
  else rangeToIndex (en + 1) s

/-- `PartialEq for unicode_str`: `self.chars == other.chars`, element-wise
slice equality. -/
def ustrEq (a b : unicode_str) : Bool := a.chars == b.chars

/-- `Ord for char`: comparison by numeric code-point value. -/
def charCmp (a b : Char) : Ordering :=
  if a < b then Ordering.lt else if b < a then Ordering.gt else Ordering.eq

/-- `Ord for [char]`: lexicographic comparison, element-wise then by length. -/
def charsCmp : List Char → List Char → Ordering
  | [], [] => Ordering.eq
  | [], _ :: _ => Ordering.lt
  | _ :: _, [] => Ordering.gt
  | a :: xs, b :: ys =>
    match charCmp a b with
    | Ordering.eq => charsCmp xs ys
    | o => o

/-- `Ord for unicode_str`: `self.chars.cmp(&other.chars)`. -/
def ucmp (a b : unicode_str) : Ordering := charsCmp a.chars b.chars

/-- The owned buffer `UnicodeString { vec: Vec<char> }`. The tracked
capacity of the `Vec` plays no role in any claim and is not modelled. -/
structure UnicodeString where
  vec : List Char
deriving DecidableEq

/-- Memory holding the list `l` at addresses `0, 1, ...`; addresses past the
list read an arbitrary fixed value (the model of adjacent allocations). -/
def memOf (l : List Char) : Mem := fun i => l.getD i (Char.ofNat 0)

/-- `unicode_str::from_chars`: reinterpret a `&[char]` as a `&unicode_str`
(a transmute in the source; here, a full-span view over the chars). -/
def from_chars (l : List Char) : unicode_str :=
  { mem := memOf l, off := 0, len := l.length }

/-- `Deref for UnicodeString`: `unicode_str::from_chars(&self.vec)`, the
full-span view over the buffer's storage. -/
def UnicodeString.deref (u : UnicodeString) : unicode_str := from_chars u.vec

/-- `UnicodeString::from_string`: collect the scalar values of the text. -/
def from_string (s : String) : UnicodeString := { vec := s.data }

/-- `ToOwned for unicode_str`: a new `UnicodeString` whose vector is
`self.chars().to_vec()`. -/
def to_owned (s : unicode_str) : UnicodeString := { vec := s.chars }

/-- The crate's `FromUtf8Error`: the moved-in bytes, unmodified, plus the
external decoder's diagnostic, of which the claims use only
`Utf8Error::valid_up_to` (the length of the valid prefix). Bytes are `Nat`
values below 256. -/
structure FromUtf8Error where
  bytes : List Nat
  validUpTo : Nat
deriving DecidableEq

/-- UTF-8 continuation byte test: `0x80 ..= 0xBF`. -/
def isCont (b : Nat) : Bool := 0x80 ≤ b && b ≤ 0xBF

/-- Permitted second byte of a three-byte sequence with lead `b` (excludes
overlong forms for `0xE0` and surrogates for `0xED`). -/
def utf8Valid3 (b b1 : Nat) : Bool :=
  if b = 0xE0 then 0xA0 ≤ b1 && b1 ≤ 0xBF
  else if b = 0xED then 0x80 ≤ b1 && b1 ≤ 0x9F
  else isCont b1

/-- Permitted second byte of a four-byte sequence with lead `b` (excludes
overlong forms for `0xF0` and values above U+10FFFF for `0xF4`). -/
def utf8Valid4 (b b1 : Nat) : Bool :=
  if b = 0xF0 then 0x90 ≤ b1 && b1 ≤ 0xBF
  else if b = 0xF4 then 0x80 ≤ b1 && b1 ≤ 0x8F
  else isCont b1

/-- The external decoder `std::str::from_utf8` followed by `chars()`, as
delegated to by `UnicodeString::from_utf8`; the spec treats it as an
external collaborator "that yields a structured error with a byte offset".
On failure the error value is the byte position at which the first
ill-formed sequence starts, i.e. `Utf8Error::valid_up_to`. `pos` is the
absolute position of the head of the remaining input. -/
def utf8DecodeFrom : List Nat → Nat → Except Nat (List Char)
  | [], _ => Except.ok []
  | b :: rest, pos =>
    if b ≤ 0x7F then
      match utf8DecodeFrom rest (pos + 1) with
      | Except.ok cs => Except.ok (Char.ofNat b :: cs)
      | Except.error p => Except.error p
    else if b < 0xC2 then Except.error pos
    else if b ≤ 0xDF then
      match rest with
      | b1 :: rest1 =>
        if isCont b1 then
          match utf8DecodeFrom rest1 (pos + 2) with
          | Except.ok cs => Except.ok (Char.ofNat ((b - 0xC0) * 64 + (b1 - 0x80)) :: cs)
          | Except.error p => Except.error p
        else Except.error pos
      | [] => Except.error pos
    else if b ≤ 0xEF then
      match rest with
      | b1 :: b2 :: rest2 =>
        if utf8Valid3 b b1 && isCont b2 then
          match utf8DecodeFrom rest2 (pos + 3) with
          | Except.ok cs =>
            Except.ok (Char.ofNat ((b - 0xE0) * 4096 + (b1 - 0x80) * 64 + (b2 - 0x80)) :: cs)
          | Except.error p => Except.error p
        else Except.error pos
      | _ => Except.error pos
    else if b ≤ 0xF4 then
      match rest with
      | b1 :: b2 :: b3 :: rest3 =>
        if utf8Valid4 b b1 && isCont b2 && isCont b3 then
          match utf8DecodeFrom rest3 (pos + 4) with
          | Except.ok cs =>
            Except.ok (Char.ofNat
              ((b - 0xF0) * 262144 + (b1 - 0x80) * 4096 + (b2 - 0x80) * 64 + (b3 - 0x80)) :: cs)
          | Except.error p => Except.error p
        else Except.error pos
      | _ => Except.error pos
    else Except.error pos

/-- `UnicodeString::from_utf8`: on decode success, collect the chars; on
failure, return `FromUtf8Error` carrying the moved-in byte vector and the
decoder's error. -/
def from_utf8 (v : List Nat) : Except FromUtf8Error UnicodeString :=
  match utf8DecodeFrom v 0 with
  | Except.ok cs => Except.ok { vec := cs }
  | Except.error p => Except.error { bytes := v, validUpTo := p }

/-- Concrete memory for counterexamples: a two-character view `['a', 'b']`
whose allocation is followed in memory by `'x', 'y', 'z'`. -/
def memAB : Mem := memOf ['a', 'b', 'x', 'y', 'z']

/-- The two-character view over `memAB`. -/
def vAB : unicode_str := { mem := memAB, off := 0, len := 2 }

/-! ## Helper lemmas -/

/-- The view produced by `from_chars` spans exactly the given chars. -/
theorem chars_from_chars (l : List Char) : (from_chars l).chars = l := by
  unfold from_chars unicode_str.chars memOf
  apply List.ext_getElem
  · simp
  · intro i h1 h2
    simp [List.getD_eq_getElem, List.getElem?_eq_getElem h2]

/-- Content of an in-bounds unchecked half-open slice: the elements
`[st, en)` of the source view. -/
theorem chars_rangeGetUnchecked (s : unicode_str) (st en : Nat)
    (h1 : st ≤ en) (h2 : en ≤ s.len) :
    (rangeGetUnchecked st en s).chars = (s.chars.take en).drop st := by
  unfold rangeGetUnchecked unicode_str.chars
  apply List.ext_getElem
  · simp
    omega
  · intro i hi1 hi2
    have hlt : st + i < en := by
      simp at hi1
      omega
    simp [List.getElem_drop, List.getElem_take]
    congr 1
    omega

/-- The `Some` case of the `match self.get(slice)` pattern used by the
panicking accessors. -/
theorem optToExcept_ok_iff (f : Failure) (o : Option unicode_str) (r : unicode_str) :
    optToExcept f o = Except.ok r ↔ o = some r := by
  cases o <;> simp [optToExcept]

/-- The `None` case of the `match self.get(slice)` pattern: a panic occurs
exactly when `get` returns `None`. -/
theorem optToExcept_error_iff (f : Failure) (o : Option unicode_str) :
    (∃ g, optToExcept f o = Except.error g) ↔ o = none := by
  cases o <;> simp [optToExcept]

/-- Code-point comparison returns `eq` exactly on equal chars. -/
theorem charCmp_eq_iff (a b : Char) : charCmp a b = Ordering.eq ↔ a = b := by
  unfold charCmp
  by_cases hab : a < b
  · simp [hab]
    intro h
    subst h
    exact absurd hab (lt_irrefl a)
  · by_cases hba : b < a
    · simp [hab, hba]
      intro h
      subst h
      exact absurd hba (lt_irrefl a)
    · simp [hab, hba]
      exact le_antisymm (le_of_not_lt hba) (le_of_not_lt hab)

/-- Lexicographic comparison of char lists returns `eq` exactly on equal
lists. -/
theorem charsCmp_eq_iff (xs ys : List Char) : charsCmp xs ys = Ordering.eq ↔ xs = ys := by
  induction xs generalizing ys with
  | nil =>
    cases ys <;> simp [charsCmp]
  | cons a xs ih =>
    cases ys with
    | nil => simp [charsCmp]
    | cons b ys =>
      unfold charsCmp
      by_cases h : charCmp a b = Ordering.eq
      · have hab : a = b := (charCmp_eq_iff a b).mp h
        subst hab
        simp [h, ih]
      · have hne : a ≠ b := fun he => h ((charCmp_eq_iff a b).mpr he)
        rcases ho : charCmp a b with _ | _ | _
        · simp [hne]
        · exact absurd ho h
        · simp [hne]

/-! ## Claim theorems -/

/-- C1: the claim says slicing with `[begin, end)` fails whenever
`begin > end` or `end > length(v)`. The implementation checks only
`begin <= end`: on the two-element view `vAB`, slicing with `[0, 5)` does
not fail — `get` returns `Some` and `index` returns the five-element
sub-view, whose span reads past the view into adjacent memory. -/
theorem C1_range_end_unchecked :
    rangeGet 0 5 vAB = some (rangeGetUnchecked 0 5 vAB) ∧
    rangeIndex 0 5 vAB = Except.ok (rangeGetUnchecked 0 5 vAB) ∧
    (rangeGetUnchecked 0 5 vAB).len = 5 ∧
    (rangeGetUnchecked 0 5 vAB).chars = ['a', 'b', 'x', 'y', 'z'] ∧
    vAB.len = 2 :=
  ⟨rfl, rfl, rfl, by decide, rfl⟩

/-- C2: indexing any view with a closed range `[begin, usize::MAX]`, or with
`..= usize::MAX`, fails unconditionally with the index-overflow condition
(and the checked accessor returns `None`), regardless of the view, of
`begin`, and of the exhaustion flag; the overflow condition is distinct
from the invalid-range condition. -/
theorem C2_inclusive_max_overflow :
    ∀ (s : unicode_str) (st : Nat) (ex : Bool),
      rangeInclusiveIndex ⟨st, USIZE_MAX, ex⟩ s = Except.error Failure.indexOverflow ∧
      rangeInclusiveGet ⟨st, USIZE_MAX, ex⟩ s = none ∧
      rangeToInclusiveIndex USIZE_MAX s = Except.error Failure.indexOverflow ∧
      rangeToInclusiveGet USIZE_MAX s = none ∧
      Failure.indexOverflow ≠ Failure.sliceError := by
  intro s st ex
  refine ⟨?_, ?_, ?_, ?_, by decide⟩ <;>
    simp [rangeInclusiveIndex, rangeInclusiveGet, rangeToInclusiveIndex, rangeToInclusiveGet]

/-- C3: for `begin ≤ end ≤ length(v)`, slicing with `[begin, end)` succeeds
(both through `get` and through the panicking `index`), and the resulting
sub-view has length `end - begin` and content equal to elements
`[begin, end)` of the source's content. -/
theorem C3_range_in_bounds (s : unicode_str) (b e : Nat) (h1 : b ≤ e) (h2 : e ≤ s.len) :
    rangeGet b e s = some (rangeGetUnchecked b e s) ∧
    rangeIndex b e s = Except.ok (rangeGetUnchecked b e s) ∧
    (rangeGetUnchecked b e s).len = e - b ∧
    (rangeGetUnchecked b e s).chars = (s.chars.take e).drop b := by
  have hget : rangeGet b e s = some (rangeGetUnchecked b e s) := by
    unfold rangeGet
    exact if_pos h1
  refine ⟨hget, ?_, rfl, chars_rangeGetUnchecked s b e h1 h2⟩
  unfold rangeIndex
  rw [hget]
  rfl

/-- C3 witness: slicing the concrete two-element view with `[1, 2)`. -/
theorem C3_range_in_bounds_witness :
    rangeGet 1 2 vAB = some (rangeGetUnchecked 1 2 vAB) ∧
    rangeIndex 1 2 vAB = Except.ok (rangeGetUnchecked 1 2 vAB) ∧
    (rangeGetUnchecked 1 2 vAB).len = 2 - 1 ∧
    (rangeGetUnchecked 1 2 vAB).chars = (vAB.chars.take 2).drop 1 :=
  C3_range_in_bounds vAB 1 2 (by decide) (by decide)

/-- C4: the claim says slicing with `[begin, ∞)` fails with the
invalid-range condition when `begin > length(v)`. The implementation never
compares `begin` with the length: on the two-element view `vAB`, slicing
with `[3, ∞)` does not fail — `get` returns `Some` and `index` returns a
sub-view whose length is the wrapped `usize` value `2 - 3 = usize::MAX`. -/
theorem C4_range_from_begin_unchecked :
    rangeFromGet 3 vAB = some (rangeFromGetUnchecked 3 vAB) ∧
    rangeFromIndex 3 vAB = Except.ok (rangeFromGetUnchecked 3 vAB) ∧
    (rangeFromGetUnchecked 3 vAB).len = USIZE_MAX ∧
    vAB.len = 2 :=
  ⟨rfl, rfl, by decide, rfl⟩

/-- C6: slicing any view, the empty one included, with the full-span range
never fails, and the result is the very same view, so its content is
identical to the source's content. -/
theorem C6_full_span_total :
    ∀ s : unicode_str, ∃ r,
      rangeFullGet s = some r ∧ rangeFullIndex s = Except.ok r ∧ r.chars = s.chars :=
  fun s => ⟨s, rfl, rfl, rfl⟩

/-- C5 counterexample: the claim fixes the valid-prefix offset of the decode
error for `[0, 159]` at `0`, but byte `0` is a valid one-byte sequence, so
decoding fails at offset `1`: the recovered bytes are `[0, 159]` and
`valid_up_to` is `1`, not `0` (matching the doc-test in
`from_utf8_error.rs`). -/
theorem C5_valid_up_to_counterexample :
    from_utf8 [0, 159] = Except.error { bytes := [0, 159], validUpTo := 1 } ∧
    (1 : Nat) ≠ 0 :=
  ⟨rfl, by decide⟩

/-- C5 as amended: every decode failure carries the original byte vector
back unmodified, and `from_utf8 [0, 159]` fails with recovered bytes
exactly `[0, 159]` and valid-prefix offset `1`. -/
theorem C5_error_retains_bytes :
    (∀ (v : List Nat) (e : FromUtf8Error), from_utf8 v = Except.error e → e.bytes = v) ∧
    from_utf8 [0, 159] = Except.error { bytes := [0, 159], validUpTo := 1 } := by
  constructor
  · intro v e h
    unfold from_utf8 at h
    rcases hdec : utf8DecodeFrom v 0 with p | cs <;> rw [hdec] at h
    · have he : ({ bytes := v, validUpTo := p } : FromUtf8Error) = e := by
        injection h
      rw [← he]
    · exact absurd h (by simp)
  · rfl

/-- C5 witness: the general retention statement applied to the concrete
input `[0, 159]`. -/
theorem C5_error_retains_bytes_witness :
    ({ bytes := [0, 159], validUpTo := 1 } : FromUtf8Error).bytes = [0, 159] :=
  C5_error_retains_bytes.1 [0, 159] { bytes := [0, 159], validUpTo := 1 }
    C5_error_retains_bytes.2

/-- C7: building a buffer from a text, dereferencing to its full-span view,
and calling the view's to-owned conversion reproduces a buffer structurally
equal to the original. -/
theorem C7_round_trip (t : String) :
    to_owned (UnicodeString.deref (from_string t)) = from_string t := by
  unfold to_owned UnicodeString.deref from_string
  rw [chars_from_chars]

/-- C8: view equality is element-wise structural equality and holds exactly
when the lexicographic code-point comparison returns `Equal`; on concrete
views, `['a','b']` versus `['a','c']` compares less-than, and `['a']`
versus `['a','b']` compares less-than (shorter with common prefix is
smaller). -/
theorem C8_eq_iff_cmp_eq :
    (∀ a b : unicode_str, ustrEq a b = true ↔ ucmp a b = Ordering.eq) ∧
    (∀ a b : unicode_str, ustrEq a b = true ↔ a.chars = b.chars) ∧
    ucmp (from_chars ['a', 'b']) (from_chars ['a', 'c']) = Ordering.lt ∧
    ucmp (from_chars ['a']) (from_chars ['a', 'b']) = Ordering.lt := by
  refine ⟨fun a b => ?_, fun a b => ?_, by decide, by decide⟩
  · unfold ustrEq ucmp
    rw [beq_iff_eq, charsCmp_eq_iff]
  · unfold ustrEq
    rw [beq_iff_eq]

/-- C9: a drained (exhausted) closed range is converted by
`into_slice_range` to the empty half-open range `[end+1, end+1)` and a
non-exhausted one to `[begin, end+1)`; however, contrary to the claim's
bounds-check parenthetical (and to the comment inside `into_slice_range`),
the endpoint is not bounds-checked: indexing the two-element view `vAB`
with the exhausted range `0..=5` succeeds with an empty sub-view placed at
out-of-bounds offset `6` instead of failing. -/
theorem C9_exhausted_conversion_unchecked :
    (∀ st sp : Nat, into_slice_range ⟨st, sp, true⟩ = (sp + 1, sp + 1)) ∧
    (∀ st sp : Nat, into_slice_range ⟨st, sp, false⟩ = (st, sp + 1)) ∧
    rangeInclusiveIndex ⟨0, 5, true⟩ vAB = Except.ok (rangeGetUnchecked 6 6 vAB) ∧
    (rangeGetUnchecked 6 6 vAB).len = 0 ∧
    (rangeGetUnchecked 6 6 vAB).off = 6 ∧
    vAB.len = 2 :=
  ⟨fun _ _ => rfl, fun _ _ => rfl, rfl, rfl, rfl, rfl⟩

/-- C10: for every range shape, the panicking accessor and the checked
accessor agree: `index` returns a sub-view exactly when `get` returns
`Some` of that same sub-view, and `index` panics exactly when `get`
returns `None`. -/
theorem C10_index_get_agree :
    (∀ s r, rangeFullIndex s = Except.ok r ↔ rangeFullGet s = some r) ∧
    (∀ s, (∃ g, rangeFullIndex s = Except.error g) ↔ rangeFullGet s = none) ∧
    (∀ st en s r, rangeIndex st en s = Except.ok r ↔ rangeGet st en s = some r) ∧
    (∀ st en s, (∃ g, rangeIndex st en s = Except.error g) ↔ rangeGet st en s = none) ∧
    (∀ en s r, rangeToIndex en s = Except.ok r ↔ rangeToGet en s = some r) ∧
    (∀ en s, (∃ g, rangeToIndex en s = Except.error g) ↔ rangeToGet en s = none) ∧
    (∀ st s r, rangeFromIndex st s = Except.ok r ↔ rangeFromGet st s = some r) ∧
    (∀ st s, (∃ g, rangeFromIndex st s = Except.error g) ↔ rangeFromGet st s = none) ∧
    (∀ rg s r, rangeInclusiveIndex rg s = Except.ok r ↔ rangeInclusiveGet rg s = some r) ∧
    (∀ rg s, (∃ g, rangeInclusiveIndex rg s = Except.error g) ↔ rangeInclusiveGet rg s = none) ∧
    (∀ en s r, rangeToInclusiveIndex en s = Except.ok r ↔ rangeToInclusiveGet en s = some r) ∧
    (∀ en s, (∃ g, rangeToInclusiveIndex en s = Except.error g) ↔ rangeToInclusiveGet en s = none) := by
  refine ⟨?_, ?_, ?_, ?_, ?_, ?_, ?_, ?_, ?_, ?_, ?_, ?_⟩
  · intro s r
    simp [rangeFullIndex, rangeFullGet]
  · intro s
    simp [rangeFullIndex, rangeFullGet]
  · intro st en s r
    exact optToExcept_ok_iff _ _ _
  · intro st en s
    exact optToExcept_error_iff _ _
  · intro en s r
    exact optToExcept_ok_iff _ _ _
  · intro en s
    exact optToExcept_error_iff _ _
  · intro st s r
    exact optToExcept_ok_iff _ _ _
  · intro st s
    exact optToExcept_error_iff _ _
  · intro rg s r
    unfold rangeInclusiveIndex rangeInclusiveGet
    by_cases h : rg.stop = USIZE_MAX <;> simp [h]
    exact optToExcept_ok_iff _ _ _
  · intro rg s
    unfold rangeInclusiveIndex rangeInclusiveGet
    by_cases h : rg.stop = USIZE_MAX <;> simp [h]
    exact optToExcept_error_iff _ _
  · intro en s r
    unfold rangeToInclusiveIndex rangeToInclusiveGet
    by_cases h : en = USIZE_MAX <;> simp [h]
    exact optToExcept_ok_iff _ _ _
  · intro en s
    unfold rangeToInclusiveIndex rangeToInclusiveGet
    by_cases h : en = USIZE_MAX <;> simp [h]
    exact optToExcept_error_iff _ _
